import Mathlib

/-!
Verification of the guided APEX installation wizard
(`Scripts/install_apex.py`): artifact locator, plan builder and the
interactive wizard session engine, shallowly embedded as executable
Lean definitions, together with theorems settling the specification
claims about them.
-/

namespace ApexInstaller

/-! ### Basic string helpers mirroring the Python primitives used by the code

All of them operate on the character list of the string so that concrete
evaluations reduce inside the kernel. -/

/-- Is the string empty? -/
def strEmpty (s : String) : Bool :=
  s.toList.isEmpty

/-- Python truthiness of an optional string value (`None` and `""` are falsy). -/
def optTruthy : Option String → Bool
  | none => false
  | some s => !strEmpty s

/-- Occurrence of `pat` as a contiguous run of `l` (Python `pat in s`). -/
def listContainsSub (pat : List Char) : List Char → Bool
  | [] => pat.isEmpty
  | c :: rest => pat.isPrefixOf (c :: rest) || listContainsSub pat rest

/-- Python `pat in s` substring test. -/
def containsSub (pat s : String) : Bool :=
  listContainsSub pat.toList s.toList

/-- The characters before the first occurrence of `pat` (the whole list
when `pat` does not occur): Python `s.split(pat, 1)[0]`. -/
def charsBefore (pat : List Char) : List Char → List Char
  | [] => []
  | c :: rest => if pat.isPrefixOf (c :: rest) then [] else c :: charsBefore pat rest

/-- The characters after the last slash (empty if the string ends with one). -/
def afterLastSlash (cs : List Char) : List Char :=
  cs.foldl (fun acc c => if c = '/' then [] else acc ++ [c]) []

/-- POSIX `os.path.basename`: the part after the last `/`. -/
def basename (p : String) : String :=
  ⟨afterLastSlash p.toList⟩

/-- Python `s.startswith(pre)`. -/
def pyStartsWith (s pre : String) : Bool :=
  pre.toList.isPrefixOf s.toList

/-- Python `s.endswith(suf)`. -/
def pyEndsWith (s suf : String) : Bool :=
  suf.toList.isSuffixOf s.toList

/-- Drop the last `n` characters of `s`. -/
def pyDropRight (s : String) (n : Nat) : String :=
  ⟨s.toList.take (s.toList.length - n)⟩

/-- Lowercase an ASCII letter, leave anything else unchanged. -/
def pyCharLower (c : Char) : Char :=
  if 65 ≤ c.toNat && c.toNat ≤ 90 then Char.ofNat (c.toNat + 32) else c

/-- Python `s.lower()` (ASCII). -/
def pyLower (s : String) : String :=
  ⟨s.toList.map pyCharLower⟩

/-- Python `s.strip()`: drop leading and trailing whitespace. -/
def pyStrip (s : String) : String :=
  ⟨((s.toList.dropWhile Char.isWhitespace).reverse.dropWhile Char.isWhitespace).reverse⟩

/-- Python `sep.join(xs)`. -/
def pyJoin (sep : String) : List String → String
  | [] => ""
  | x :: rest => rest.foldl (fun acc y => acc ++ sep ++ y) x

/-- Python `int(s)` for a string of ASCII digits. -/
def parseNatChars (cs : List Char) : Nat :=
  cs.foldl (fun acc c => acc * 10 + (c.toNat - 48)) 0

/-- Is `c` an ASCII decimal digit? -/
def asciiDigit (c : Char) : Bool :=
  48 ≤ c.toNat && c.toNat ≤ 57

/-- Python `str.rstrip(chars)`: drop trailing characters belonging to `chars`. -/
def rstripChars (s : String) (chars : List Char) : String :=
  ⟨(s.toList.reverse.dropWhile (fun c => chars.contains c)).reverse⟩

/-- POSIX `os.path.join` for two components. -/
def osPathJoin (a b : String) : String :=
  if pyStartsWith b "/" then b
  else if strEmpty a then b
  else if pyEndsWith a "/" then a ++ b
  else a ++ "/" ++ b

/-- Characters `shlex.quote` considers safe: ASCII alphanumerics, the
underscore, and the punctuation set at-percent-plus-equals-colon-comma-dot-slash-dash. -/
def shlexSafeChar (c : Char) : Bool :=
  (97 ≤ c.toNat && c.toNat ≤ 122) || (65 ≤ c.toNat && c.toNat ≤ 90) ||
    (48 ≤ c.toNat && c.toNat ≤ 57) || c = '_' ||
    ['@', '%', '+', '=', ':', ',', '.', '/', '-'].contains c

/-- Replace every occurrence of the apostrophe by the quoted form
`\x27"\x27"\x27` used by `shlex.quote`. -/
def shlexEscapeQuotes (cs : List Char) : List Char :=
  cs.flatMap (fun c =>
    if c = '\x27' then ['\x27', '"', '\x27', '"', '\x27'] else [c])

/-- Python `shlex.quote`. -/
def shlexQuote (s : String) : String :=
  if strEmpty s then "\x27\x27"
  else if s.toList.all shlexSafeChar then s
  else "\x27" ++ (⟨shlexEscapeQuotes s.toList⟩ : String) ++ "\x27"

/-! ### Data model (`InstallationStep`, `InstallationStage`, inputs) -/

/-- `InstallationStep`: a single actionable instruction for the guided installer. -/
structure InstallationStep where
  title : String
  description : String
  context : String
  commands : List String := []
deriving Repr, DecidableEq, Inhabited

/-- `InstallationStage`: groups multiple steps under a themed stage. -/
structure InstallationStage where
  key : String
  title : String
  description : String
  steps : List InstallationStep
deriving Repr, DecidableEq, Inhabited

/-- The project snapshot read from the record store: the three fields the
wizard consults (`project.get(...)` yields `none` for an absent key). -/
structure ProjectSnapshot where
  container_id : Option String := none
  container_name : Option String := none
  apex_url : Option String := none
deriving Repr, DecidableEq, Inhabited

/-- The artifact match result: optional discovered path per requirement key. -/
structure ArtifactMatches where
  java : Option String := none
  apex : Option String := none
  ords : Option String := none
deriving Repr, DecidableEq, Inhabited

/-- `matches.get(key)` on the match dictionary. -/
def ArtifactMatches.get (m : ArtifactMatches) (key : String) : Option String :=
  if key = "java" then m.java
  else if key = "apex" then m.apex
  else if key = "ords" then m.ords
  else none

/-- One entry of the `REQUIRED_ARTIFACTS` catalog. -/
structure ArtifactRequirement where
  key : String
  keywords : List String
  url : String
  friendly_name : String
deriving Repr, DecidableEq, Inhabited

/-- The fixed catalog `REQUIRED_ARTIFACTS`, in Python dict insertion order. -/
def REQUIRED_ARTIFACTS : List ArtifactRequirement :=
  [ { key := "java"
    , keywords := ["jdk", "linux"]
    , url := "https://www.oracle.com/java/technologies/downloads/"
    , friendly_name := "Java Development Kit for Linux x64" }
  , { key := "apex"
    , keywords := ["apex"]
    , url := "https://www.oracle.com/tools/downloads/apex-downloads/"
    , friendly_name := "Oracle APEX bundle" }
  , { key := "ords"
    , keywords := ["ords"]
    , url := "https://www.oracle.com/database/technologies/appdev/rest-data-services-downloads.html"
    , friendly_name := "Oracle REST Data Services (ORDS)" } ]

/-- The `sys.platform` dispatch used when choosing the browser command. -/
inductive Platform where
  | darwin
  | win32
  | other
deriving Repr, DecidableEq, Inhabited

/-! ### Artifact locator (`_find_artifact`, `missing_artifacts_report`) -/

/-- A directory tree: the contents handed back by the filesystem, with the
order of subdirectories and files fixed (the abstraction of `os.walk`'s
stable enumeration). -/
inductive FsTree where
  | node (files : List String) (subdirs : List (String × FsTree))
deriving Repr, Inhabited

/-- The files of the root directory of a tree. -/
def FsTree.files : FsTree → List String
  | node fs _ => fs

/-- The named subdirectories of the root directory of a tree. -/
def FsTree.subdirs : FsTree → List (String × FsTree)
  | node _ ds => ds

/-- `os.walk` in top-down order: every directory paired with its file list,
parents before children, siblings in enumeration order. -/
def walk (path : String) (t : FsTree) : List (String × List String) :=
  match t with
  | .node fs ds =>
    (path, fs) :: ds.attach.flatMap
      (fun d => walk (osPathJoin path d.1.1) d.1.2)
termination_by sizeOf t
decreasing_by
  obtain ⟨⟨x, y⟩, hmem⟩ := d
  have h2 := List.sizeOf_lt_of_mem hmem
  rw [Prod.mk.sizeOf_spec] at h2
  simp only [FsTree.node.sizeOf_spec]
  omega

/-- Does the normalized (lowercased, space-stripped) file name contain every
keyword of the requirement (keywords themselves lowercased)? -/
def matchesAllKeywords (keywords : List String) (fileName : String) : Bool :=
  let normalizedFile : String := ⟨(pyLower fileName).toList.filter (fun c => !(c = ' '))⟩
  (keywords.map pyLower).all fun k => containsSub k normalizedFile

/-- The nested loops of `_find_artifact` over the `os.walk` output: first
matching file of the first directory containing one. -/
def findArtifactInWalk (keywords : List String) :
    List (String × List String) → Option String
  | [] => none
  | (root, files) :: rest =>
    match files.find? (fun f => matchesAllKeywords keywords f) with
    | some f => some (osPathJoin root f)
    | none => findArtifactInWalk keywords rest

/-- `_find_artifact`: first file under the scan root whose normalized name
contains every keyword. -/
def findArtifact (keywords : List String) (root : String) (tree : FsTree) :
    Option String :=
  findArtifactInWalk keywords (walk root tree)

/-- `missing_artifacts_report`: one line per unmatched catalog requirement
(`matches` is called `m` because `matches` is a Lean keyword). -/
def missing_artifacts_report (m : ArtifactMatches) : List String :=
  REQUIRED_ARTIFACTS.foldl
    (fun notes metadata =>
      if optTruthy (m.get metadata.key) then notes
      else
        let fn := metadata.friendly_name
        let u := metadata.url
        notes ++ [("Missing " ++ fn ++ ". Download it from " ++ u)])
    []

/-! ### Plan-builder helpers -/

/-- `_resolve_container_reference`: prefer a truthy container id, fall back
to a truthy container name, else nothing. -/
def resolve_container_reference (project : ProjectSnapshot) : Option String :=
  if optTruthy project.container_id then project.container_id
  else if optTruthy project.container_name then project.container_name
  else none

/-- The suffix-stripping loop of `_guess_java_home` (first matching known
archive suffix is removed, then the loop breaks). -/
def stripKnownSuffix (name : String) : String :=
  if pyEndsWith name ".tar.gz" then pyDropRight name ".tar.gz".toList.length
  else if pyEndsWith name ".tgz" then pyDropRight name ".tgz".toList.length
  else if pyEndsWith name ".tar" then pyDropRight name ".tar".toList.length
  else name

/-- `_guess_java_home`: infer the directory created by the JDK archive,
falling back to the explicit placeholder. -/
def guess_java_home (archive_name : Option String) : String :=
  match archive_name with
  | none => "<jdk_folder>"
  | some archiveName =>
    if strEmpty archiveName then "<jdk_folder>"
    else
      let name := stripKnownSuffix archiveName
      let name :=
        if containsSub "_linux" name then (⟨charsBefore "_linux".toList name.toList⟩ : String)
        else name
      if strEmpty name then "<jdk_folder>" else name

/-- `os.path.basename(path) if path else None`: archive name of a match. -/
def archiveOf (path : Option String) : Option String :=
  match path with
  | none => none
  | some p => if strEmpty p then none else some (basename p)

/-- Keep the truthy archive names, in the tuple order of the source
(`java_archive, ords_archive, apex_archive`). -/
def truthyNames (names : List (Option String)) : List String :=
  (names.filterMap id).filter (fun s => !strEmpty s)

/-- The extraction command list of the preparation stage: fixed preamble,
then one extraction command per artifact whose archive name is truthy
(the source guards each with `if java_archive:` and so on, which skips
both `None` and an empty name), then a listing. -/
def extract_commands (toolsFolder : String)
    (javaArchive apexArchive ordsArchive : Option String) : List String :=
  let cmds := [("cd " ++ toolsFolder), "ls -1"]
  let cmds := match javaArchive with
    | some a => if strEmpty a then cmds else cmds ++ [("tar -xzf " ++ a)]
    | none => cmds
  let cmds := match apexArchive with
    | some a => if strEmpty a then cmds else cmds ++ [("unzip -o " ++ a)]
    | none => cmds
  let cmds := match ordsArchive with
    | some a =>
      if strEmpty a then cmds
      else cmds ++ ["mkdir -p ords", ("unzip -o " ++ a ++ " -d ords")]
    | none => cmds
  cmds ++ [("ls -lh " ++ toolsFolder)]

/-- `_build_guided_stages`: transform project metadata into the themed
stages of the guided wizard. `workingFolder` is the helper's working
folder and `platform` the `sys.platform` dispatch. -/
def build_guided_stages (workingFolder : String) (platform : Platform)
    (project : ProjectSnapshot) (m : ArtifactMatches) : List InstallationStage :=
  match resolve_container_reference project with
  | none => []
  | some container_reference =>
  if strEmpty container_reference then [] else
  let container_label :=
    if optTruthy project.container_name then project.container_name.getD ""
    else container_reference
  let apex_url :=
    if optTruthy project.apex_url then project.apex_url.getD ""
    else "http://localhost:8080/ords"
  let apexUrlStripped := rstripChars apex_url ['/']
  let tools_folder := "/opt/oracle/tools"
  let artifacts_folder := osPathJoin workingFolder "APEX_files"
  let artifacts_dir := rstripChars artifacts_folder ['/', '\\']
  let copy_source := shlexQuote (artifacts_dir ++ "/.")
  let java_archive := archiveOf m.java
  let ords_archive := archiveOf m.ords
  let apex_archive := archiveOf m.apex
  let java_hint := guess_java_home java_archive
  let ords_home := "ords"
  let apex_home := "apex"
  let ords_config_root := "/opt/oracle/ords_config"
  let browser_command :=
    match platform with
    | .darwin => ("open " ++ apex_url)
    | .win32 => ("start " ++ apex_url)
    | .other => ("xdg-open " ++ apex_url)
  let available := truthyNames [java_archive, ords_archive, apex_archive]
  let missing :=
    (REQUIRED_ARTIFACTS.filter (fun metadata => !optTruthy (m.get metadata.key))).map
      (fun metadata => metadata.friendly_name)
  let availableJoined := pyJoin ", " available
  let missingJoined := pyJoin ", " missing
  let artifact_message :=
    if !available.isEmpty then ("Found archives: " ++ availableJoined)
    else "No archives detected."
  let artifact_message :=
    if !missing.isEmpty then artifact_message ++ (" Missing: " ++ missingJoined ++ ".")
    else artifact_message
  let preparation_steps : List InstallationStep :=
    [ { title := "Verify Docker runtime"
      , context := "Host shell"
      , description :=
          "Make sure Docker Desktop is running and can reach the local daemon. " ++
          "Install the gvenzl/oracle-xe image beforehand."
      , commands := ["docker info"] }
    , { title := "Start Oracle container"
      , context := "Host shell"
      , description :=
          ("Start the container assigned to this project (" ++ container_label ++ ") and wait for the database to open. ") ++
          "Follow the logs until you see Database ready messages, then exit with CTRL+C."
      , commands :=
          [ ("docker start " ++ container_reference)
          , ("docker logs -f " ++ container_reference) ] }
    , { title := "Create tools directory"
      , context := "Host shell"
      , description :=
          "Ensure the shared tools directory exists inside the container before copying the installers."
      , commands := [("docker exec -it " ++ container_reference ++ " mkdir -p " ++ tools_folder)] }
    , { title := "Copy installation artifacts"
      , context := "Host shell"
      , description :=
          ("Transfer the installer archives into the container. " ++ artifact_message)
      , commands :=
          [ ("docker cp " ++ copy_source ++ " " ++ container_reference ++ ":" ++ tools_folder)
          , ("docker exec -it " ++ container_reference ++ " ls -lh " ++ tools_folder) ] }
    , { title := "Open oracle shell"
      , context := "Host shell"
      , description :=
          "Enter the container as the oracle user. Use the root shell as a fallback and export ORACLE_HOME manually."
      , commands :=
          [ ("docker exec -it --user oracle " ++ container_reference ++ " bash")
          , ("docker exec -it " ++ container_reference ++ " bash") ] } ]
  let preparation_steps := preparation_steps ++
    [ { title := "Extract installers"
      , context := "Container shell"
      , description :=
          "Unpack the archives inside the tools directory. If the files were already extracted, re-run the commands to refresh them."
      , commands := extract_commands tools_folder java_archive apex_archive ords_archive } ]
  let java_steps : List InstallationStep :=
    [ { title := "Configure Java environment"
      , context := "Container shell"
      , description :=
          "Point JAVA_HOME to the JDK you just extracted so ORDS can use it. Adjust the folder name if it differs or if you are running as root instead of the oracle user."
      , commands :=
          [ ("cd " ++ tools_folder)
          , ("export JAVA_HOME=" ++ tools_folder ++ "/" ++ java_hint)
          , "export PATH=\"$JAVA_HOME/bin:$PATH\""
          , "$JAVA_HOME/bin/java -version" ] }
    , { title := "Persist Java environment (optional)"
      , context := "Container shell"
      , description :=
          "Append the JAVA_HOME exports to the oracle user\x27s shell profile so new sessions inherit the configuration. Skip if you prefer to set it manually per session."
      , commands :=
          [ ("echo \x27export JAVA_HOME=" ++ tools_folder ++ "/" ++ java_hint ++ "\x27 >> ~/.bashrc")
          , "echo \x27export PATH=\"$JAVA_HOME/bin:$PATH\"\x27 >> ~/.bashrc"
          , "tail -n 5 ~/.bashrc" ] } ]
  let ords_steps : List InstallationStep :=
    [ { title := "Make ORDS CLI available"
      , context := "Container shell"
      , description :=
          "Add the ords launcher to PATH for this session. Append the export to ~/.bashrc if you want every shell to include it automatically."
      , commands :=
          [ ("cd " ++ tools_folder ++ "/" ++ ords_home)
          , ("export PATH=\"$PATH:" ++ tools_folder ++ "/" ++ ords_home ++ "/bin\"")
          , ("echo \x27export PATH=\"$PATH:" ++ tools_folder ++ "/" ++ ords_home ++ "/bin\"\x27 >> ~/.bashrc  # optional")
          , "ords --version" ] }
    , { title := "Review ORDS directory"
      , context := "Container shell"
      , description :=
          "Confirm the ORDS archive was extracted into its own folder."
      , commands :=
          [ ("cd " ++ tools_folder)
          , "ls -1"
          , ("cd " ++ tools_folder ++ "/" ++ ords_home)
          , "ls -1" ] }
    , { title := "Prepare ORDS configuration directory"
      , context := "Container shell"
      , description :=
          "Create a configuration folder outside the ORDS product path to avoid warnings. If you are retrying the install, move the previous config out of the way first."
      , commands :=
          [ "mv /opt/oracle/ords_config /opt/oracle/ords_config.bak.$(date +%Y%m%d%H%M%S) 2>/dev/null || true"
          , ("mkdir -p " ++ ords_config_root)
          , ("ls -ld " ++ ords_config_root) ] }
    , { title := "Install ORDS"
      , context := "Container shell"
      , description :=
          "Run the interactive installer. Select connection type 1 (Basic), enter host localhost, port 1521, and service XEPDB1. When prompted for administrator credentials use \x27sys as sysdba\x27 with the container password (JACJConsulting). On the summary screen edit option 3 to set a known password for ORDS_PUBLIC_USER, then accept the configuration."
      , commands :=
          [ ("cd " ++ tools_folder ++ "/" ++ ords_home)
          , ("ords --config " ++ ords_config_root ++ " install") ] }
    , { title := "Sync ORDS runtime credentials"
      , context := "Container shell"
      , description :=
          "Reset the ORDS and APEX REST users to the password you chose in the installer, then store it securely in the ORDS config. Replace <ords_password> with that value when running these commands."
      , commands :=
          [ "sqlplus / as sysdba <<\x27EOF\x27"
          , "ALTER SESSION SET CONTAINER = CDB$ROOT;"
          , "ALTER USER ORDS_PUBLIC_USER IDENTIFIED BY \"<ords_password>\" ACCOUNT UNLOCK CONTAINER = ALL;"
          , "ALTER SESSION SET CONTAINER = XEPDB1;"
          , "ALTER USER APEX_PUBLIC_USER IDENTIFIED BY \"<ords_password>\" ACCOUNT UNLOCK;"
          , "ALTER USER APEX_REST_PUBLIC_USER IDENTIFIED BY \"<ords_password>\" ACCOUNT UNLOCK;"
          , "EXIT;"
          , "EOF"
          , ("ords --config " ++ ords_config_root ++ " config secret db.password")
          , "# enter <ords_password> when prompted" ] }
    , { title := "Enable PL/SQL gateway"
      , context := "Container shell"
      , description :=
          "Turn on the PL/SQL gateway so /ords/apex and /ords/apex_admin respond."
      , commands :=
          [ ("ords --config " ++ ords_config_root ++ " config set feature.plsql.gateway.enabled true") ] }
    , { title := "Start ORDS service"
      , context := "Container shell"
      , description :=
          "Launch ORDS so it listens on port 8080. Consider using screen, tmux, or nohup to keep it running in the background."
      , commands :=
          [ ("cd " ++ tools_folder ++ "/" ++ ords_home)
          , ("ords --config " ++ ords_config_root ++ " serve")
          , ("curl -I " ++ apexUrlStripped ++ "/_/") ] }
    , { title := "Grant ORDS-enabled schema access"
      , context := "Container shell"
      , description :=
          "Run the optional grant/enable tasks if you plan to use SQL Developer Web or REST endpoints for additional schemas."
      , commands :=
          [ ("cd " ++ tools_folder ++ "/" ++ ords_home)
          , ("ords --config " ++ ords_config_root ++ " grant-schema")
          , ("ords --config " ++ ords_config_root ++ " enable-schema") ] } ]
  let apex_steps : List InstallationStep :=
    [ { title := "Inspect XDB component"
      , context := "Container shell"
      , description :=
          "Verify the XDB component status in both CDB$ROOT and XEPDB1. APEX requires XDB to be VALID in every container."
      , commands :=
          [ "sqlplus / as sysdba"
          , "SHOW con_name;"
          , "SELECT comp_name, status FROM dba_registry WHERE comp_id = \x27XDB\x27;"
          , "ALTER SESSION SET CONTAINER = XEPDB1;"
          , "SHOW con_name;"
          , "SELECT comp_name, status FROM dba_registry WHERE comp_id = \x27XDB\x27;" ] }
    , { title := "Repair XDB when invalid (advanced)"
      , context := "Container shell"
      , description :=
          "If XDB reports INVALID in any container, follow Oracle\x27s documented reload procedure. This restarts the instance in UPGRADE mode; plan for downtime. Skip this step if XDB is already VALID."
      , commands :=
          [ "ALTER SESSION SET CONTAINER = CDB$ROOT;"
          , "SHUTDOWN IMMEDIATE;"
          , "STARTUP UPGRADE;"
          , "@?/rdbms/admin/xdbrelod.sql"
          , "SHUTDOWN IMMEDIATE;"
          , "STARTUP;"
          , "ALTER PLUGGABLE DATABASE ALL OPEN;"
          , "@?/rdbms/admin/utlrp.sql"
          , "ALTER SESSION SET CONTAINER = XEPDB1;"
          , "@?/rdbms/admin/utlrp.sql"
          , "SELECT comp_name, status FROM dba_registry WHERE comp_id = \x27XDB\x27;" ] }
    , { title := "Install APEX core"
      , context := "Container shell"
      , description :=
          "Run the core APEX installation inside the XEPDB1 pluggable database. If the prerequisite check reports XDB as INVALID, rerun the previous step before retrying this installation."
      , commands :=
          [ ("cd " ++ tools_folder ++ "/" ++ apex_home)
          , "sqlplus / as sysdba"
          , "ALTER SESSION SET CONTAINER = XEPDB1;"
          , "@apexins.sql SYSAUX SYSAUX TEMP /i/" ] }
    , { title := "Set APEX administrator password"
      , context := "Container shell"
      , description :=
          "Define the ADMIN password so you can log in to the APEX workspace after the installation."
      , commands :=
          [ ("cd " ++ tools_folder ++ "/" ++ apex_home)
          , "sqlplus / as sysdba"
          , "ALTER SESSION SET CONTAINER = XEPDB1;"
          , "@apxchpwd.sql" ] }
    , { title := "Configure REST support"
      , context := "Container shell"
      , description :=
          "Run the APEX REST configuration script to set passwords for APEX_PUBLIC_USER and ORDS_PUBLIC_USER. When prompted, provide the same passwords twice and type SYSAUX and TEMP when the script asks for tablespaces."
      , commands :=
          [ ("cd " ++ tools_folder ++ "/" ++ apex_home)
          , "sqlplus / as sysdba"
          , "ALTER SESSION SET CONTAINER = XEPDB1;"
          , "@apex_rest_config.sql" ] }
    , { title := "Unlock REST accounts"
      , context := "Container shell"
      , description :=
          "If needed, unlock application users so ORDS can authenticate. Replace <password> with the values you selected during the REST configuration step. ORDS_PUBLIC_USER is only present on older installs; skip its ALTER if the account does not exist."
      , commands :=
          [ "sqlplus / as sysdba"
          , "ALTER SESSION SET CONTAINER = XEPDB1;"
          , "SELECT username, account_status FROM dba_users WHERE username IN (\x27APEX_PUBLIC_USER\x27,\x27APEX_REST_PUBLIC_USER\x27,\x27ORDS_PUBLIC_USER\x27);"
          , "ALTER USER APEX_PUBLIC_USER IDENTIFIED BY \"<password>\" ACCOUNT UNLOCK;"
          , "ALTER USER APEX_REST_PUBLIC_USER IDENTIFIED BY \"<password>\" ACCOUNT UNLOCK;"
          , "ALTER USER ORDS_PUBLIC_USER IDENTIFIED BY \"<password>\" ACCOUNT UNLOCK; -- optional, only if it exists" ] }
    , { title := "Validate APEX endpoint"
      , context := "Host browser"
      , description :=
          "Confirm that the APEX login page is reachable. Replace localhost with the mapped host if required."
      , commands :=
          [ ("curl -I " ++ apex_url)
          , browser_command ] } ]
  [ { key := "prep"
    , title := "Stage 0 – Files and Extraction"
    , description := "Move the installer archives into the container and unpack them."
    , steps := preparation_steps }
  , { key := "java"
    , title := "Stage 1 – Java Runtime"
    , description := "Configure JAVA_HOME inside the container and verify the runtime."
    , steps := java_steps }
  , { key := "ords"
    , title := "Stage 2 – ORDS Setup"
    , description := "Install Oracle REST Data Services and bring the standalone server online."
    , steps := ords_steps }
  , { key := "apex"
    , title := "Stage 3 – APEX Installation"
    , description := "Install Oracle APEX, set the ADMIN password, and expose the endpoint."
    , steps := apex_steps } ]

/-! ### Wizard session engine

The interactive loops of `run_installation_wizard`, `_run_stage` and
`_process_step` consume operator input lines from an explicit list.
`none` models the `EOFError` Python raises when `input()` has no more
data; clipboard copy requests are recorded as the list of texts handed
to `copy_to_clipboard` (the copy outcome only affects printed
diagnostics, never control flow). -/

/-- Outcome of one step interaction: whether the wizard should go on
(`cont = false` models `_process_step` returning `False` on `q`), the
accumulated notes ledger, the clipboard copy requests so far, and the
input lines not yet consumed. -/
structure StepResult where
  cont : Bool
  notes : List String
  copies : List String
  rest : List String
deriving Repr, DecidableEq, Inhabited

/-- The command-selection loop of `_process_step`: repeatedly prompt until
the operator presses Enter; `a` requests a copy of all commands joined by
newlines, an in-range number requests a copy of that command, anything
else (including out-of-range numbers) re-prompts. -/
def commandPhase (commands : List String) (copies : List String) :
    List String → Option (List String × List String)
  | [] => none
  | raw :: rest =>
    let choice := pyLower (pyStrip raw)
    if strEmpty choice then some (copies, rest)
    else if choice = "a" then
      commandPhase commands (copies ++ [pyJoin "\n" commands]) rest
    else if !strEmpty choice && choice.toList.all asciiDigit then
      let n := parseNatChars choice.toList
      if 1 ≤ n && n ≤ commands.length then
        commandPhase commands (copies ++ [commands.getD (n - 1) ""]) rest
      else
        commandPhase commands copies rest
    else
      commandPhase commands copies rest

/-- The acknowledgement loop of `_process_step`: Enter completes the step,
`n` reads one more line and appends it (when non-empty) to the ledger
keyed by stage and step title, `q` signals interruption, anything else
re-prompts. Returns the continue flag, the ledger, and the unread input. -/
def ackPhase (stageTitle stepTitle : String) (notes : List String) :
    List String → Option (Bool × List String × List String)
  | [] => none
  | raw :: rest =>
    let followUp := pyLower (pyStrip raw)
    if strEmpty followUp then some (true, notes, rest)
    else if followUp = "n" then
      match rest with
      | [] => none
      | noteRaw :: rest2 =>
        let note := pyStrip noteRaw
        if strEmpty note then ackPhase stageTitle stepTitle notes rest2
        else
          let st := stageTitle
          let sp := stepTitle
          ackPhase stageTitle stepTitle (notes ++ [(st ++ " / " ++ sp ++ ": " ++ note)]) rest2
    else if followUp = "q" then some (false, notes, rest)
    else ackPhase stageTitle stepTitle notes rest

/-- `_process_step`: command-selection phase (only when the step has
commands) followed by the acknowledgement phase. -/
def process_step (step : InstallationStep) (stage : InstallationStage)
    (notes copies : List String) (inputs : List String) : Option StepResult :=
  if step.commands.isEmpty then
    (ackPhase stage.title step.title notes inputs).map
      (fun r => ⟨r.1, r.2.1, copies, r.2.2⟩)
  else
    match commandPhase step.commands copies inputs with
    | none => none
    | some (copies2, rest) =>
      (ackPhase stage.title step.title notes rest).map
        (fun r => ⟨r.1, r.2.1, copies2, r.2.2⟩)

/-- The step iteration of `_run_stage`: steps strictly in order, stopping
at the first step that signals interruption. -/
def runSteps (stage : InstallationStage) (steps : List InstallationStep)
    (notes copies : List String) (inputs : List String) : Option StepResult :=
  match steps with
  | [] => some ⟨true, notes, copies, inputs⟩
  | step :: rest =>
    match process_step step stage notes copies inputs with
    | none => none
    | some r => if r.cont then runSteps stage rest r.notes r.copies r.rest else some r

/-- `_run_stage`: execute all steps of a stage; `cont = false` of the
result models the `False` return on interruption. -/
def run_stage (stage : InstallationStage) (notes copies : List String)
    (inputs : List String) : Option StepResult :=
  runSteps stage stage.steps notes copies inputs

/-- The `for stage in sequence` loop of the wizard: run each chosen stage,
breaking out on the first interruption. -/
def runSequence (seq : List InstallationStage) (notes copies : List String)
    (inputs : List String) : Option StepResult :=
  match seq with
  | [] => some ⟨true, notes, copies, inputs⟩
  | stage :: rest =>
    match run_stage stage notes copies inputs with
    | none => none
    | some r => if r.cont then runSequence rest r.notes r.copies r.rest else some r

/-- What a single line of operator input selects in the `choosing` state. -/
inductive ChoiceOutcome where
  | exit
  | run (seq : List InstallationStage)
  | unknown
deriving Repr, DecidableEq, Inhabited

/-- Lookup in `stage_map` (the dictionary keyed by `str(index)`). -/
def stageByIndex (stages : List InstallationStage) (choice : String) :
    Option InstallationStage :=
  (stages.enum.find? (fun p => toString p.1 = choice)).map (fun p => p.2)

/-- Lookup in `stage_keys` (the dictionary keyed by `stage.key.lower()`;
on duplicate keys the later stage wins, as in a Python dict build). -/
def stageByKey (stages : List InstallationStage) (choice : String) :
    Option InstallationStage :=
  stages.reverse.find? (fun stage => pyLower stage.key = choice)

/-- The dispatch of one already-normalized choosing-prompt line, in the
order of the source: empty exits, `a`/`all` selects every stage, then the
index dictionary, then the key dictionary, else unknown. -/
def interpretChoice (stages : List InstallationStage) (choice : String) :
    ChoiceOutcome :=
  if strEmpty choice then .exit
  else if choice = "a" || choice = "all" then .run stages
  else
    match stageByIndex stages choice with
    | some stage => .run [stage]
    | none =>
      match stageByKey stages choice with
      | some stage => .run [stage]
      | none => .unknown

/-- How `run_installation_wizard` ends: refusal before any interaction
(empty plan), or a closed session carrying the final notes ledger and
clipboard copy requests. -/
inductive WizardResult where
  | unavailable (diagnostic : String)
  | closed (notes : List String) (copies : List String)
deriving Repr, DecidableEq, Inhabited

/-- The command-selection loop only consumes input, never fabricates it. -/
theorem commandPhase_rest_length (commands : List String) :
    ∀ inputs copies r, commandPhase commands copies inputs = some r →
      r.2.length ≤ inputs.length := by
  intro inputs
  induction inputs with
  | nil => intro copies r h; simp [commandPhase] at h
  | cons raw rest ih =>
    intro copies r h
    simp only [commandPhase] at h
    split_ifs at h with h1 h2 h3 h4
    · injection h with h'
      subst h'
      simp
    · have := ih _ _ h
      simp only [List.length_cons]
      omega
    · have := ih _ _ h
      simp only [List.length_cons]
      omega
    · have := ih _ _ h
      simp only [List.length_cons]
      omega
    · have := ih _ _ h
      simp only [List.length_cons]
      omega

/-- Fuel-indexed auxiliary form of `ackPhase_rest_length`. -/
theorem ackPhase_rest_length_aux (stageTitle stepTitle : String) :
    ∀ (fuel : Nat) (inputs : List String), inputs.length ≤ fuel →
      ∀ notes c n r, ackPhase stageTitle stepTitle notes inputs = some (c, n, r) →
        r.length ≤ inputs.length := by
  intro fuel
  induction fuel with
  | zero =>
    intro inputs hle notes c n r h
    have hnil : inputs = [] := List.length_eq_zero.mp (Nat.le_zero.mp hle)
    subst hnil
    rw [ackPhase.eq_def] at h
    simp at h
  | succ k ih =>
    intro inputs hle notes c n r h
    match inputs with
    | [] =>
      rw [ackPhase.eq_def] at h
      simp at h
    | raw :: rest =>
      rw [ackPhase.eq_def] at h
      simp only [] at h
      split_ifs at h with h1 h2 h3
      · simp only [Option.some.injEq, Prod.mk.injEq] at h
        obtain ⟨rfl, rfl, rfl⟩ := h
        simp
      · match rest with
        | [] => simp at h
        | noteRaw :: rest2 =>
          simp only [] at h
          simp only [List.length_cons] at hle ⊢
          have hrec : ackPhase stageTitle stepTitle notes rest2 = some (c, n, r) ∨
              ∃ notes2, ackPhase stageTitle stepTitle notes2 rest2 = some (c, n, r) := by
            split_ifs at h
            · exact Or.inl h
            · exact Or.inr ⟨_, h⟩
          have hr : r.length ≤ rest2.length := by
            rcases hrec with h' | ⟨notes2, h'⟩
            · exact ih rest2 (by omega) _ _ _ _ h'
            · exact ih rest2 (by omega) _ _ _ _ h'
          omega
      · simp only [Option.some.injEq, Prod.mk.injEq] at h
        obtain ⟨rfl, rfl, rfl⟩ := h
        simp
      · have := ih rest (by simp at hle; omega) _ _ _ _ h
        simp only [List.length_cons]
        omega

/-- The acknowledgement phase also only consumes input. -/
theorem ackPhase_rest_length (stageTitle stepTitle : String)
    (inputs notes : List String) (c : Bool) (n r : List String)
    (h : ackPhase stageTitle stepTitle notes inputs = some (c, n, r)) :
    r.length ≤ inputs.length :=
  ackPhase_rest_length_aux stageTitle stepTitle inputs.length inputs le_rfl notes c n r h

/-- A whole step interaction only consumes input. -/
theorem process_step_rest_length (step : InstallationStep)
    (stage : InstallationStage) (notes copies inputs : List String)
    (r : StepResult) (h : process_step step stage notes copies inputs = some r) :
    r.rest.length ≤ inputs.length := by
  unfold process_step at h
  split_ifs at h with hc
  · rw [Option.map_eq_some'] at h
    obtain ⟨⟨c0, n0, r0⟩, hack, rfl⟩ := h
    simpa using ackPhase_rest_length _ _ _ _ _ _ _ hack
  · cases hcp : commandPhase step.commands copies inputs with
    | none => rw [hcp] at h; simp at h
    | some p =>
      obtain ⟨copies2, rest1⟩ := p
      rw [hcp] at h
      simp only [] at h
      rw [Option.map_eq_some'] at h
      obtain ⟨⟨c0, n0, r0⟩, hack, rfl⟩ := h
      have l1 := commandPhase_rest_length _ _ _ _ hcp
      have l2 := ackPhase_rest_length _ _ _ _ _ _ _ hack
      simp only [] at l1 ⊢
      omega

/-- A whole stage run only consumes input. -/
theorem runSteps_rest_length (stage : InstallationStage) :
    ∀ steps notes copies inputs r, runSteps stage steps notes copies inputs = some r →
      r.rest.length ≤ inputs.length := by
  intro steps
  induction steps with
  | nil =>
    intro notes copies inputs r h
    simp only [runSteps, Option.some.injEq] at h
    subst h
    simp
  | cons step rest ih =>
    intro notes copies inputs r h
    simp only [runSteps] at h
    cases hps : process_step step stage notes copies inputs with
    | none => rw [hps] at h; simp at h
    | some r1 =>
      rw [hps] at h
      simp only [] at h
      have l1 := process_step_rest_length _ _ _ _ _ _ hps
      by_cases hcont : r1.cont
      · rw [if_pos hcont] at h
        have := ih _ _ _ _ h
        omega
      · rw [if_neg hcont] at h
        injection h with h'
        subst h'
        omega

/-- A batch of chosen stages only consumes input. -/
theorem runSequence_rest_length :
    ∀ (seq : List InstallationStage) notes copies inputs r,
      runSequence seq notes copies inputs = some r →
      r.rest.length ≤ inputs.length := by
  intro seq
  induction seq with
  | nil =>
    intro notes copies inputs r h
    simp only [runSequence, Option.some.injEq] at h
    subst h
    simp
  | cons stage rest ih =>
    intro notes copies inputs r h
    simp only [runSequence] at h
    cases hst : run_stage stage notes copies inputs with
    | none => rw [hst] at h; simp at h
    | some r1 =>
      rw [hst] at h
      simp only [] at h
      have l1 := runSteps_rest_length stage _ _ _ _ _ hst
      by_cases hcont : r1.cont
      · rw [if_pos hcont] at h
        have := ih _ _ _ _ h
        omega
      · rw [if_neg hcont] at h
        injection h with h'
        subst h'
        omega

/-- The outer wizard loop: present the stages, read one choosing-prompt
line, dispatch it, run the chosen batch, and either return to choosing or
close; `.closed` carries the ledger and clipboard requests at exit. -/
def wizardLoop (stages : List InstallationStage) (notes copies : List String)
    (inputs : List String) : Option WizardResult :=
  match inputs with
  | [] => none
  | raw :: rest =>
    let choice := pyLower (pyStrip raw)
    match interpretChoice stages choice with
    | .exit => some (.closed notes copies)
    | .unknown => wizardLoop stages notes copies rest
    | .run seq =>
      match hrs : runSequence seq notes copies rest with
      | none => none
      | some r =>
        if r.cont then wizardLoop stages r.notes r.copies r.rest
        else some (.closed r.notes r.copies)
termination_by inputs.length
decreasing_by
  · simp
  · have := runSequence_rest_length _ _ _ _ _ hrs
    simp only [List.length_cons]
    omega

/-- The diagnostic `run_installation_wizard` prints when the plan is empty. -/
def unavailableDiagnostic : String :=
  "Guided wizard is unavailable: make sure the project has container information."

/-- `run_installation_wizard`: build the guided plan, refuse when it is
empty, otherwise run the interactive session with an empty ledger. -/
def run_installation_wizard (workingFolder : String) (platform : Platform)
    (project : ProjectSnapshot) (m : ArtifactMatches) (inputs : List String) :
    Option WizardResult :=
  let stages := build_guided_stages workingFolder platform project m
  if stages.isEmpty then some (.unavailable unavailableDiagnostic)
  else wizardLoop stages [] [] inputs

/-- The note-flushing epilogue of the session (source lines 155-158): the
lines printed for the ledger once the loop has exited, one per note in
entry order, preceded by a header, and nothing when the ledger is empty. -/
def sessionFlush (collected_notes : List String) : List String :=
  if collected_notes.isEmpty then []
  else "\nSession notes:" :: collected_notes.map (fun entry => ("  - " ++ entry))

/-- Fixture step used to exercise the wizard-engine theorems on concrete runs. -/
def demoStep : InstallationStep :=
  { title := "S1", description := "d", context := "c", commands := [] }

/-- Fixture stage holding `demoStep`. -/
def demoStage : InstallationStage :=
  { key := "one", title := "Stage One", description := "d", steps := [demoStep] }

/-- Second fixture stage, keyed `two`. -/
def demoStage2 : InstallationStage :=
  { key := "two", title := "Stage Two", description := "d", steps := [demoStep] }

/-! ### Claim theorems -/

/-- C6: for the runtime archive filename `jdk-17_linux-x64_bin.tar.gz` the
derived installation-directory hint is `jdk-17` (the `.tar.gz` suffix is
stripped first, then everything from `_linux` onward); and when no runtime
archive is matched, the hint is the explicit unresolved placeholder. -/
theorem c6_java_home_hint :
    guess_java_home (some "jdk-17_linux-x64_bin.tar.gz") = "jdk-17" ∧
    guess_java_home none = "<jdk_folder>" := by
  constructor
  · decide
  · rfl

/-- C5: for the snapshot with container id `c1`, container name `proj_xe`
and no stored access URL, and an empty artifact match result, the built
plan has exactly 4 stages; the preparation stage has a "Copy installation
artifacts" step whose first command references the container reference
`c1`; and the application-install stage ends with a "Validate APEX
endpoint" step whose command references the default access URL
`http://localhost:8080/ords`. -/
theorem c5_concrete_plan :
    (build_guided_stages "/work" Platform.other
        { container_id := some "c1", container_name := some "proj_xe", apex_url := none }
        { java := none, apex := none, ords := none }).length = 4 ∧
    (((build_guided_stages "/work" Platform.other
        { container_id := some "c1", container_name := some "proj_xe", apex_url := none }
        { java := none, apex := none, ords := none }).headD default).steps.getD 3 default).title =
      "Copy installation artifacts" ∧
    "docker cp /work/APEX_files/. c1:/opt/oracle/tools" ∈
      (((build_guided_stages "/work" Platform.other
        { container_id := some "c1", container_name := some "proj_xe", apex_url := none }
        { java := none, apex := none, ords := none }).headD default).steps.getD 3 default).commands ∧
    (((build_guided_stages "/work" Platform.other
        { container_id := some "c1", container_name := some "proj_xe", apex_url := none }
        { java := none, apex := none, ords := none }).getD 3 default).steps.getLastD default).title =
      "Validate APEX endpoint" ∧
    "curl -I http://localhost:8080/ords" ∈
      (((build_guided_stages "/work" Platform.other
        { container_id := some "c1", container_name := some "proj_xe", apex_url := none }
        { java := none, apex := none, ords := none }).getD 3 default).steps.getLastD default).commands := by
  refine ⟨rfl, rfl, ?_, rfl, ?_⟩
  · decide
  · decide

/-- C8: with no requirement matched, the missing-artifacts report has
exactly one line per catalog requirement, in catalog order, naming the
artifact and its download URL; with all three matched it is empty. -/
theorem c8_missing_report (m : ArtifactMatches) :
    (optTruthy m.java = false → optTruthy m.apex = false → optTruthy m.ords = false →
      missing_artifacts_report m =
        [ "Missing Java Development Kit for Linux x64. Download it from https://www.oracle.com/java/technologies/downloads/"
        , "Missing Oracle APEX bundle. Download it from https://www.oracle.com/tools/downloads/apex-downloads/"
        , "Missing Oracle REST Data Services (ORDS). Download it from https://www.oracle.com/database/technologies/appdev/rest-data-services-downloads.html" ]) ∧
    (optTruthy m.java = true → optTruthy m.apex = true → optTruthy m.ords = true →
      missing_artifacts_report m = []) := by
  constructor <;> intro h1 h2 h3 <;>
    simp [missing_artifacts_report, REQUIRED_ARTIFACTS, ArtifactMatches.get, h1, h2, h3]

/-- C8 witness: the report at the empty match result and at a fully
matched result. -/
theorem c8_missing_report_witness :
    missing_artifacts_report { java := none, apex := none, ords := none } =
      [ "Missing Java Development Kit for Linux x64. Download it from https://www.oracle.com/java/technologies/downloads/"
      , "Missing Oracle APEX bundle. Download it from https://www.oracle.com/tools/downloads/apex-downloads/"
      , "Missing Oracle REST Data Services (ORDS). Download it from https://www.oracle.com/database/technologies/appdev/rest-data-services-downloads.html" ] ∧
    missing_artifacts_report { java := some "j", apex := some "a", ords := some "o" } = [] :=
  ⟨(c8_missing_report { java := none, apex := none, ords := none }).1 rfl rfl rfl,
   (c8_missing_report { java := some "j", apex := some "a", ords := some "o" }).2 rfl rfl rfl⟩

/-- C1: a snapshot with neither container identifier nor container name
yields an empty guided plan, and the wizard refuses to start, reporting
the unavailability diagnostic, whatever the operator would have typed. -/
theorem c1_no_container_no_session (workingFolder : String) (platform : Platform)
    (project : ProjectSnapshot) (m : ArtifactMatches) (inputs : List String)
    (hid : project.container_id = none) (hname : project.container_name = none) :
    build_guided_stages workingFolder platform project m = [] ∧
    run_installation_wizard workingFolder platform project m inputs =
      some (WizardResult.unavailable unavailableDiagnostic) := by
  have hr : resolve_container_reference project = none := by
    simp [resolve_container_reference, hid, hname, optTruthy]
  have hb : build_guided_stages workingFolder platform project m = [] := by
    unfold build_guided_stages
    rw [hr]
  exact ⟨hb, by simp [run_installation_wizard, hb]⟩

/-- C1 witness at the all-absent snapshot. -/
theorem c1_no_container_no_session_witness :
    build_guided_stages "/work" Platform.other
      { container_id := none, container_name := none, apex_url := none }
      { java := none, apex := none, ords := none } = [] ∧
    run_installation_wizard "/work" Platform.other
      { container_id := none, container_name := none, apex_url := none }
      { java := none, apex := none, ords := none } ["0", "all"] =
      some (WizardResult.unavailable unavailableDiagnostic) :=
  c1_no_container_no_session "/work" Platform.other
    { container_id := none, container_name := none, apex_url := none }
    { java := none, apex := none, ords := none } ["0", "all"] rfl rfl

/-- C10: container resolution goes by truthiness, not key presence: a
falsy (empty) container id falls back to the container name; when both
are falsy the reference is absent and the plan is empty, even when the
snapshot carries both fields. -/
theorem c10_truthiness_resolution :
    (∀ project : ProjectSnapshot, optTruthy project.container_id = false →
      optTruthy project.container_name = true →
      resolve_container_reference project = project.container_name) ∧
    (∀ (project : ProjectSnapshot) (workingFolder : String) (platform : Platform)
      (m : ArtifactMatches), optTruthy project.container_id = false →
      optTruthy project.container_name = false →
      resolve_container_reference project = none ∧
      build_guided_stages workingFolder platform project m = []) ∧
    build_guided_stages "/work" Platform.other
      { container_id := some "", container_name := some "", apex_url := none }
      { java := none, apex := none, ords := none } = [] := by
  refine ⟨?_, ?_, ?_⟩
  · intro project h1 h2
    simp [resolve_container_reference, h1, h2]
  · intro project workingFolder platform m h1 h2
    have hr : resolve_container_reference project = none := by
      simp [resolve_container_reference, h1, h2]
    refine ⟨hr, ?_⟩
    unfold build_guided_stages
    rw [hr]
  · decide

/-- C10 witness: an empty-string id with a real name resolves to the name;
an empty-string id with an absent name resolves to nothing and builds an
empty plan. -/
theorem c10_truthiness_resolution_witness :
    resolve_container_reference
      { container_id := some "", container_name := some "proj_xe", apex_url := none } =
      some "proj_xe" ∧
    resolve_container_reference
      { container_id := some "", container_name := none, apex_url := none } = none ∧
    build_guided_stages "/w" Platform.other
      { container_id := some "", container_name := none, apex_url := none }
      { java := none, apex := none, ords := none } = [] := by
  refine ⟨?_, ?_, ?_⟩
  · exact c10_truthiness_resolution.1
      { container_id := some "", container_name := some "proj_xe", apex_url := none } rfl rfl
  · exact (c10_truthiness_resolution.2.1
      { container_id := some "", container_name := none, apex_url := none }
      "/w" Platform.other { java := none, apex := none, ords := none } rfl rfl).1
  · exact (c10_truthiness_resolution.2.1
      { container_id := some "", container_name := none, apex_url := none }
      "/w" Platform.other { java := none, apex := none, ords := none } rfl rfl).2

/-- A match whose every path has a truthy basename yields only truthy
archive names. -/
theorem archiveOf_truthy (path : Option String)
    (h : ∀ p, path = some p → strEmpty (basename p) = false) :
    ∀ x, archiveOf path = some x → strEmpty x = false := by
  intro x hx
  unfold archiveOf at hx
  cases path with
  | none => simp at hx
  | some p =>
    simp only [] at hx
    split_ifs at hx with hp
    injection hx with hx2
    subst hx2
    exact h p rfl

/-- A resolved container reference is a non-empty string. -/
theorem resolve_truthy (project : ProjectSnapshot) (ref : String)
    (h : resolve_container_reference project = some ref) : strEmpty ref = false := by
  unfold resolve_container_reference at h
  split_ifs at h with h1 h2
  · rw [h] at h1
    simpa [optTruthy] using h1
  · rw [h] at h2
    simpa [optTruthy] using h2

/-- C4: whenever the snapshot resolves to a container reference, the plan
has exactly the four stages `prep`, `java`, `ords`, `apex` in that order,
and the preparation stage ends with the extraction step whose per-artifact
commands (tar for the runtime archive, unzip for the APEX archive,
mkdir+unzip for the ORDS archive) appear exactly when that artifact was
matched. The basename hypotheses restrict to match results whose paths
have a non-empty final component — exactly the shape `_find_artifact`
produces (`os.path.join(root, file_name)` with a file name enumerated by
`os.walk`); without them a pathological path ending in a slash would be
"matched" while the source's `if java_archive:` guard skips its
extraction command. -/
theorem c4_stage_structure (workingFolder : String) (platform : Platform)
    (project : ProjectSnapshot) (m : ArtifactMatches) (ref : String)
    (h : resolve_container_reference project = some ref)
    (hj : ∀ p, m.java = some p → strEmpty (basename p) = false)
    (hapex : ∀ p, m.apex = some p → strEmpty (basename p) = false)
    (hords : ∀ p, m.ords = some p → strEmpty (basename p) = false) :
    (build_guided_stages workingFolder platform project m).map InstallationStage.key =
      ["prep", "java", "ords", "apex"] ∧
    ∃ extractStep : InstallationStep,
      ((build_guided_stages workingFolder platform project m).headD default).steps.getLast? =
        some extractStep ∧
      extractStep.title = "Extract installers" ∧
      extractStep.commands =
        ["cd /opt/oracle/tools", "ls -1"] ++
          (match archiveOf m.java with
            | some x => [("tar -xzf " ++ x)]
            | none => []) ++
          (match archiveOf m.apex with
            | some x => [("unzip -o " ++ x)]
            | none => []) ++
          (match archiveOf m.ords with
            | some x => ["mkdir -p ords", ("unzip -o " ++ x ++ " -d ords")]
            | none => []) ++
          ["ls -lh /opt/oracle/tools"] := by
  have hne := resolve_truthy project ref h
  unfold build_guided_stages
  rw [h]
  simp only [hne, Bool.false_eq_true, if_false]
  constructor
  · simp
  · refine ⟨_, List.getLast?_concat _, rfl, ?_⟩
    have hja := archiveOf_truthy m.java hj
    have haa := archiveOf_truthy m.apex hapex
    have hoa := archiveOf_truthy m.ords hords
    simp only []
    unfold extract_commands
    cases hx : archiveOf m.java <;> cases hy : archiveOf m.apex <;>
      cases hz : archiveOf m.ords <;> simp_all

/-- C4 witness at a concrete resolvable snapshot with a partially matched
artifact set. -/
theorem c4_stage_structure_witness :
    (build_guided_stages "/w" Platform.other
        { container_id := some "c1", container_name := none, apex_url := none }
        { java := some "/w/APEX_files/jdk-17_linux-x64_bin.tar.gz", apex := none,
          ords := some "/w/APEX_files/ords-22.4.zip" }).map InstallationStage.key =
      ["prep", "java", "ords", "apex"] ∧
    ∃ extractStep : InstallationStep,
      ((build_guided_stages "/w" Platform.other
          { container_id := some "c1", container_name := none, apex_url := none }
          { java := some "/w/APEX_files/jdk-17_linux-x64_bin.tar.gz", apex := none,
            ords := some "/w/APEX_files/ords-22.4.zip" }).headD default).steps.getLast? =
        some extractStep ∧
      extractStep.title = "Extract installers" ∧
      extractStep.commands =
        ["cd /opt/oracle/tools", "ls -1"] ++
          [("tar -xzf " ++ "jdk-17_linux-x64_bin.tar.gz")] ++ [] ++
          ["mkdir -p ords", ("unzip -o " ++ "ords-22.4.zip" ++ " -d ords")] ++
          ["ls -lh /opt/oracle/tools"] := by
  have base := c4_stage_structure "/w" Platform.other
    { container_id := some "c1", container_name := none, apex_url := none }
    { java := some "/w/APEX_files/jdk-17_linux-x64_bin.tar.gz", apex := none,
      ords := some "/w/APEX_files/ords-22.4.zip" } "c1" (by decide)
    (by intro p hp; injection hp with hp2; subst hp2; decide)
    (by intro p hp; simp at hp)
    (by intro p hp; injection hp with hp2; subst hp2; decide)
  refine ⟨base.1, ?_⟩
  obtain ⟨st, h1, h2, h3⟩ := base.2
  refine ⟨st, h1, h2, ?_⟩
  rw [h3]
  decide

/-- One-step unfolding of the outer wizard loop on a non-empty input list. -/
theorem wizardLoop_cons (stages : List InstallationStage) (notes copies : List String)
    (raw : String) (rest : List String) :
    wizardLoop stages notes copies (raw :: rest) =
      match interpretChoice stages (pyLower (pyStrip raw)) with
      | .exit => some (.closed notes copies)
      | .unknown => wizardLoop stages notes copies rest
      | .run seq =>
        match runSequence seq notes copies rest with
        | none => none
        | some r =>
          if r.cont then wizardLoop stages r.notes r.copies r.rest
          else some (.closed r.notes r.copies) := by
  rw [wizardLoop.eq_def]
  simp only []
  cases hc : interpretChoice stages (pyLower (pyStrip raw)) with
  | exit => rfl
  | unknown => rfl
  | run seq =>
    split
    · rfl
    · rfl
    · rename_i seq2 hseq
      injection hseq with hseq2
      subst hseq2
      split
      · rename_i hnone
        rw [hnone]
      · rename_i r hsome
        rw [hsome]

/-- The nested locator loops, expressed against the flattened traversal. -/
theorem findArtifactInWalk_eq_find? (keywords : List String) :
    ∀ entries : List (String × List String),
      findArtifactInWalk keywords entries =
        Option.map (fun rf : String × String => osPathJoin rf.1 rf.2)
          ((entries.flatMap (fun rf => rf.2.map (fun f => (rf.1, f)))).find?
            (fun rf => matchesAllKeywords keywords rf.2)) := by
  intro entries
  induction entries with
  | nil => rfl
  | cons e rest ih =>
    obtain ⟨root, files⟩ := e
    simp only [findArtifactInWalk, List.flatMap_cons, List.find?_append, List.find?_map]
    cases hf : files.find? (fun f => matchesAllKeywords keywords f) with
    | some f => simp [Function.comp_def, hf]
    | none => simp [Function.comp_def, hf, ih]

/-- C7: the artifact locator returns exactly the first file, in the stable
directory-then-filename traversal order of the scan root, whose
lowercased, space-stripped name contains every keyword — and nothing when
no file matches. Determinism for identical directory contents is inherent
in the functional embedding. -/
theorem c7_locator_traversal (keywords : List String) (root : String) (tree : FsTree) :
    findArtifact keywords root tree =
      Option.map (fun rf : String × String => osPathJoin rf.1 rf.2)
        (((walk root tree).flatMap (fun rf => rf.2.map (fun f => (rf.1, f)))).find?
          (fun rf => matchesAllKeywords keywords rf.2)) :=
  findArtifactInWalk_eq_find? keywords (walk root tree)

/-- C2: an interruption signal stops everything downstream: a step that
signals interruption makes the stage loop return at once (the remaining
steps of the stage are never processed and consume no input), an
interrupted stage makes the batch loop return at once (later stages of
the batch are never run), and the outer loop then transitions straight
to the closed state. -/
theorem c2_interruption_propagates :
    (∀ (stage : InstallationStage) (step : InstallationStep)
        (rest : List InstallationStep) (notes copies inputs : List String)
        (r : StepResult), process_step step stage notes copies inputs = some r →
        r.cont = false →
        runSteps stage (step :: rest) notes copies inputs = some r) ∧
    (∀ (stage : InstallationStage) (more : List InstallationStage)
        (notes copies inputs : List String) (r : StepResult),
        run_stage stage notes copies inputs = some r → r.cont = false →
        runSequence (stage :: more) notes copies inputs = some r) ∧
    (∀ (stages seq : List InstallationStage) (notes copies : List String)
        (raw : String) (rest : List String) (r : StepResult),
        interpretChoice stages (pyLower (pyStrip raw)) = ChoiceOutcome.run seq →
        runSequence seq notes copies rest = some r → r.cont = false →
        wizardLoop stages notes copies (raw :: rest) =
          some (WizardResult.closed r.notes r.copies)) := by
  refine ⟨?_, ?_, ?_⟩
  · intro stage step rest notes copies inputs r h hcont
    simp only [runSteps]
    rw [h]
    simp [hcont]
  · intro stage more notes copies inputs r h hcont
    simp only [runSequence]
    rw [h]
    simp [hcont]
  · intro stages seq notes copies raw rest r hchoice hrun hcont
    rw [wizardLoop_cons, hchoice]
    simp only []
    rw [hrun]
    simp [hcont]

/-- C2 witness: a two-step stage interrupted at its first step by `q`,
the same stage at the head of a two-stage batch, and a full session in
which `all` is chosen and the first step is interrupted. -/
theorem c2_interruption_propagates_witness :
    runSteps
      { key := "one", title := "Stage One", description := "d",
        steps := [{ title := "S1", description := "d", context := "c", commands := [] },
                  { title := "S2", description := "d", context := "c", commands := [] }] }
      [{ title := "S1", description := "d", context := "c", commands := [] },
       { title := "S2", description := "d", context := "c", commands := [] }]
      [] [] ["q", "x"] = some { cont := false, notes := [], copies := [], rest := ["x"] } ∧
    runSequence
      [{ key := "one", title := "Stage One", description := "d",
         steps := [{ title := "S1", description := "d", context := "c", commands := [] }] },
       { key := "two", title := "Stage Two", description := "d",
         steps := [{ title := "S3", description := "d", context := "c", commands := [] }] }]
      [] [] ["q", "x"] = some { cont := false, notes := [], copies := [], rest := ["x"] } ∧
    wizardLoop
      [{ key := "one", title := "Stage One", description := "d",
         steps := [{ title := "S1", description := "d", context := "c", commands := [] }] },
       { key := "two", title := "Stage Two", description := "d",
         steps := [{ title := "S3", description := "d", context := "c", commands := [] }] }]
      [] [] ["all", "q", "x"] = some (WizardResult.closed [] []) := by
  refine ⟨?_, ?_, ?_⟩
  · exact c2_interruption_propagates.1
      { key := "one", title := "Stage One", description := "d",
        steps := [{ title := "S1", description := "d", context := "c", commands := [] },
                  { title := "S2", description := "d", context := "c", commands := [] }] }
      { title := "S1", description := "d", context := "c", commands := [] }
      [{ title := "S2", description := "d", context := "c", commands := [] }]
      [] [] ["q", "x"] { cont := false, notes := [], copies := [], rest := ["x"] }
      (by decide) rfl
  · exact c2_interruption_propagates.2.1
      { key := "one", title := "Stage One", description := "d",
        steps := [{ title := "S1", description := "d", context := "c", commands := [] }] }
      [{ key := "two", title := "Stage Two", description := "d",
         steps := [{ title := "S3", description := "d", context := "c", commands := [] }] }]
      [] [] ["q", "x"] { cont := false, notes := [], copies := [], rest := ["x"] }
      (by decide) rfl
  · exact c2_interruption_propagates.2.2
      [{ key := "one", title := "Stage One", description := "d",
         steps := [{ title := "S1", description := "d", context := "c", commands := [] }] },
       { key := "two", title := "Stage Two", description := "d",
         steps := [{ title := "S3", description := "d", context := "c", commands := [] }] }]
      [{ key := "one", title := "Stage One", description := "d",
         steps := [{ title := "S1", description := "d", context := "c", commands := [] }] },
       { key := "two", title := "Stage Two", description := "d",
         steps := [{ title := "S3", description := "d", context := "c", commands := [] }] }]
      [] [] "all" ["q", "x"] { cont := false, notes := [], copies := [], rest := ["x"] }
      (by decide) (by decide) rfl

/-- Fuel-indexed form: the acknowledgement phase only appends to the ledger. -/
theorem ackPhase_notes_mono_aux (st sp : String) :
    ∀ (fuel : Nat) (inputs : List String), inputs.length ≤ fuel →
      ∀ notes c n r, ackPhase st sp notes inputs = some (c, n, r) → notes <+: n := by
  intro fuel
  induction fuel with
  | zero =>
    intro inputs hle notes c n r h
    have hnil : inputs = [] := List.length_eq_zero.mp (Nat.le_zero.mp hle)
    subst hnil
    rw [ackPhase.eq_def] at h
    simp at h
  | succ k ih =>
    intro inputs hle notes c n r h
    match inputs with
    | [] =>
      rw [ackPhase.eq_def] at h
      simp at h
    | raw :: rest =>
      rw [ackPhase.eq_def] at h
      simp only [] at h
      split_ifs at h with h1 h2 h3
      · simp only [Option.some.injEq, Prod.mk.injEq] at h
        obtain ⟨rfl, rfl, rfl⟩ := h
        exact List.prefix_refl _
      · match rest with
        | [] => simp at h
        | noteRaw :: rest2 =>
          simp only [] at h
          simp only [List.length_cons] at hle
          split_ifs at h with h4
          · exact ih rest2 (by omega) _ _ _ _ h
          · exact (List.prefix_append _ _).trans (ih rest2 (by omega) _ _ _ _ h)
      · simp only [Option.some.injEq, Prod.mk.injEq] at h
        obtain ⟨rfl, rfl, rfl⟩ := h
        exact List.prefix_refl _
      · exact ih rest (by simp at hle; omega) _ _ _ _ h

/-- The acknowledgement phase only appends to the ledger. -/
theorem ackPhase_notes_mono (st sp : String) (inputs notes : List String)
    (c : Bool) (n r : List String)
    (h : ackPhase st sp notes inputs = some (c, n, r)) : notes <+: n :=
  ackPhase_notes_mono_aux st sp inputs.length inputs le_rfl notes c n r h

/-- A step interaction only appends to the ledger. -/
theorem process_step_notes_mono (step : InstallationStep)
    (stage : InstallationStage) (notes copies inputs : List String)
    (r : StepResult) (h : process_step step stage notes copies inputs = some r) :
    notes <+: r.notes := by
  unfold process_step at h
  split_ifs at h with hc
  · rw [Option.map_eq_some'] at h
    obtain ⟨⟨c0, n0, r0⟩, hack, rfl⟩ := h
    exact ackPhase_notes_mono _ _ _ _ _ _ _ hack
  · cases hcp : commandPhase step.commands copies inputs with
    | none => rw [hcp] at h; simp at h
    | some p =>
      obtain ⟨copies2, rest1⟩ := p
      rw [hcp] at h
      simp only [] at h
      rw [Option.map_eq_some'] at h
      obtain ⟨⟨c0, n0, r0⟩, hack, rfl⟩ := h
      exact ackPhase_notes_mono _ _ _ _ _ _ _ hack

/-- A stage run only appends to the ledger. -/
theorem runSteps_notes_mono (stage : InstallationStage) :
    ∀ (steps : List InstallationStep) (notes copies inputs : List String)
      (r : StepResult), runSteps stage steps notes copies inputs = some r →
      notes <+: r.notes := by
  intro steps
  induction steps with
  | nil =>
    intro notes copies inputs r h
    simp only [runSteps, Option.some.injEq] at h
    subst h
    exact List.prefix_refl _
  | cons step rest ih =>
    intro notes copies inputs r h
    simp only [runSteps] at h
    cases hps : process_step step stage notes copies inputs with
    | none => rw [hps] at h; simp at h
    | some r1 =>
      rw [hps] at h
      simp only [] at h
      have m1 := process_step_notes_mono _ _ _ _ _ _ hps
      by_cases hcont : r1.cont
      · rw [if_pos hcont] at h
        exact m1.trans (ih _ _ _ _ h)
      · rw [if_neg hcont] at h
        injection h with h2
        subst h2
        exact m1

/-- A batch run only appends to the ledger. -/
theorem runSequence_notes_mono :
    ∀ (seq : List InstallationStage) (notes copies inputs : List String)
      (r : StepResult), runSequence seq notes copies inputs = some r →
      notes <+: r.notes := by
  intro seq
  induction seq with
  | nil =>
    intro notes copies inputs r h
    simp only [runSequence, Option.some.injEq] at h
    subst h
    exact List.prefix_refl _
  | cons stage rest ih =>
    intro notes copies inputs r h
    simp only [runSequence] at h
    cases hst : run_stage stage notes copies inputs with
    | none => rw [hst] at h; simp at h
    | some r1 =>
      rw [hst] at h
      simp only [] at h
      have m1 := runSteps_notes_mono stage _ _ _ _ _ hst
      by_cases hcont : r1.cont
      · rw [if_pos hcont] at h
        exact m1.trans (ih _ _ _ _ h)
      · rw [if_neg hcont] at h
        injection h with h2
        subst h2
        exact m1

/-- Fuel-indexed form: the whole session only appends to the ledger. -/
theorem wizardLoop_notes_mono_aux :
    ∀ (fuel : Nat) (inputs : List String), inputs.length ≤ fuel →
      ∀ (stages : List InstallationStage) (notes copies n c : List String),
        wizardLoop stages notes copies inputs = some (WizardResult.closed n c) →
        notes <+: n := by
  intro fuel
  induction fuel with
  | zero =>
    intro inputs hle stages notes copies n c h
    have hnil : inputs = [] := List.length_eq_zero.mp (Nat.le_zero.mp hle)
    subst hnil
    rw [wizardLoop.eq_def] at h
    simp at h
  | succ k ih =>
    intro inputs hle stages notes copies n c h
    match inputs with
    | [] =>
      rw [wizardLoop.eq_def] at h
      simp at h
    | raw :: rest =>
      rw [wizardLoop_cons] at h
      simp only [List.length_cons] at hle
      cases hc : interpretChoice stages (pyLower (pyStrip raw)) with
      | exit =>
        rw [hc] at h
        simp only [Option.some.injEq, WizardResult.closed.injEq] at h
        obtain ⟨rfl, rfl⟩ := h
        exact List.prefix_refl _
      | unknown =>
        rw [hc] at h
        exact ih rest (by omega) _ _ _ _ _ h
      | run seq =>
        rw [hc] at h
        simp only [] at h
        cases hr : runSequence seq notes copies rest with
        | none => rw [hr] at h; simp at h
        | some r =>
          rw [hr] at h
          simp only [] at h
          have m1 := runSequence_notes_mono _ _ _ _ _ hr
          have lr := runSequence_rest_length _ _ _ _ _ hr
          by_cases hcont : r.cont
          · rw [if_pos hcont] at h
            exact m1.trans (ih r.rest (by omega) _ _ _ _ _ h)
          · rw [if_neg hcont] at h
            simp only [Option.some.injEq, WizardResult.closed.injEq] at h
            obtain ⟨rfl, rfl⟩ := h
            exact m1

/-- C3: the ledger is append-only at every level — each step interaction,
each stage run, and the whole session (including sessions closed by the
`q` interruption) preserve previously collected notes as a prefix, in
entry order, in the final ledger; and the flush epilogue surfaces the
whole ledger, in order, exactly when it is non-empty. -/
theorem c3_ledger_preserved :
    (∀ (step : InstallationStep) (stage : InstallationStage)
        (notes copies inputs : List String) (r : StepResult),
        process_step step stage notes copies inputs = some r → notes <+: r.notes) ∧
    (∀ (stage : InstallationStage) (steps : List InstallationStep)
        (notes copies inputs : List String) (r : StepResult),
        runSteps stage steps notes copies inputs = some r → notes <+: r.notes) ∧
    (∀ (stages : List InstallationStage) (notes copies inputs n c : List String),
        wizardLoop stages notes copies inputs = some (WizardResult.closed n c) →
        notes <+: n) ∧
    sessionFlush [] = [] ∧
    (∀ notes : List String, notes ≠ [] →
        sessionFlush notes =
          "\nSession notes:" :: notes.map (fun entry => "  - " ++ entry)) := by
  refine ⟨?_, ?_, ?_, rfl, ?_⟩
  · exact fun step stage notes copies inputs r h =>
      process_step_notes_mono step stage notes copies inputs r h
  · exact fun stage steps notes copies inputs r h =>
      runSteps_notes_mono stage steps notes copies inputs r h
  · exact fun stages notes copies inputs n c h =>
      wizardLoop_notes_mono_aux inputs.length inputs le_rfl stages notes copies n c h
  · intro notes h
    simp [sessionFlush, h]

/-- C3 witness: a step interaction that logs a note and is then
interrupted, the same inside a stage run and a full session, and the
flush of a singleton ledger. -/
theorem c3_ledger_preserved_witness :
    ["old"] <+: ["old", "Stage One / S1: hello"] ∧
    ["old"] <+: ["old", "Stage One / S1: hello"] ∧
    ["old"] <+: ["old", "Stage One / S1: hello"] ∧
    sessionFlush ["a"] = "\nSession notes:" :: ["a"].map (fun entry => "  - " ++ entry) := by
  refine ⟨?_, ?_, ?_, ?_⟩
  · exact c3_ledger_preserved.1
      { title := "S1", description := "d", context := "c", commands := [] }
      { key := "one", title := "Stage One", description := "d",
        steps := [{ title := "S1", description := "d", context := "c", commands := [] }] }
      ["old"] [] ["n", "hello", "q"]
      { cont := false, notes := ["old", "Stage One / S1: hello"], copies := [], rest := [] }
      (by decide)
  · exact c3_ledger_preserved.2.1
      { key := "one", title := "Stage One", description := "d",
        steps := [{ title := "S1", description := "d", context := "c", commands := [] }] }
      [{ title := "S1", description := "d", context := "c", commands := [] }]
      ["old"] [] ["n", "hello", "q"]
      { cont := false, notes := ["old", "Stage One / S1: hello"], copies := [], rest := [] }
      (by decide)
  · have hw : wizardLoop [demoStage] ["old"] [] ["0", "n", "hello", "q"] =
        some (WizardResult.closed ["old", "Stage One / S1: hello"] []) := by
      rw [wizardLoop_cons]
      rw [(by decide : interpretChoice [demoStage] (pyLower (pyStrip "0")) =
        ChoiceOutcome.run [demoStage])]
      simp only []
      rw [(by decide : runSequence [demoStage] ["old"] [] ["n", "hello", "q"] =
        some { cont := false, notes := ["old", "Stage One / S1: hello"], copies := [],
               rest := [] })]
      rfl
    exact c3_ledger_preserved.2.2.1 [demoStage] ["old"] [] ["0", "n", "hello", "q"]
      ["old", "Stage One / S1: hello"] [] hw
  · exact c3_ledger_preserved.2.2.2.2 ["a"] (by simp)

/-! ### Decimal numerals: the `stage_map` keys `str(0)`, `str(1)`, ... -/

/-- The decimal digit characters of `n`, most significant first (the
characters `Nat.repr` produces). -/
def digitsRepr (n : Nat) : List Char :=
  if h : n / 10 = 0 then [Nat.digitChar (n % 10)]
  else digitsRepr (n / 10) ++ [Nat.digitChar (n % 10)]
termination_by n
decreasing_by
  have hn : n ≠ 0 := by
    intro h0
    subst h0
    simp at h
  exact Nat.div_lt_self (Nat.pos_of_ne_zero hn) (by omega)

/-- `Nat.toDigitsCore` with enough fuel produces `digitsRepr`. -/
theorem toDigitsCore_eq_digitsRepr :
    ∀ (fuel n : Nat) (ds : List Char), n < fuel →
      Nat.toDigitsCore 10 fuel n ds = digitsRepr n ++ ds := by
  intro fuel
  induction fuel with
  | zero => intro n ds h; omega
  | succ k ih =>
    intro n ds h
    rw [Nat.toDigitsCore]
    by_cases h0 : n / 10 = 0
    · rw [if_pos h0, digitsRepr, dif_pos h0]
      rfl
    · rw [if_neg h0]
      have hlt : n / 10 < k := by
        have h1 : n ≠ 0 := by
          intro hz
          subst hz
          simp at h0
        have := Nat.div_lt_self (Nat.pos_of_ne_zero h1) (show 1 < 10 by omega)
        omega
      rw [ih (n / 10) (Nat.digitChar (n % 10) :: ds) hlt]
      have hN : digitsRepr n = (if _h : n / 10 = 0 then [(n % 10).digitChar]
          else digitsRepr (n / 10) ++ [(n % 10).digitChar]) := by rw [digitsRepr]
      rw [hN, dif_neg h0]
      simp

/-- `toString` on a natural number is the string of its decimal digits. -/
theorem toString_nat_eq (n : Nat) : (toString n : String) = ⟨digitsRepr n⟩ := by
  show Nat.repr n = _
  unfold Nat.repr Nat.toDigits
  rw [toDigitsCore_eq_digitsRepr (n + 1) n [] (Nat.lt_succ_self n)]
  simp [List.asString]

/-- The decimal digit list is never empty. -/
theorem digitsRepr_ne_nil (n : Nat) : digitsRepr n ≠ [] := by
  rw [digitsRepr]
  split_ifs <;> simp

/-- Every character of the decimal digit list is a digit character. -/
theorem digitsRepr_digits (n : Nat) :
    ∀ c ∈ digitsRepr n, c ∈ ['0', '1', '2', '3', '4', '5', '6', '7', '8', '9'] := by
  induction n using Nat.strong_induction_on with
  | _ n ih =>
    intro c hc
    rw [digitsRepr] at hc
    have hmem : ∀ m : Nat, m < 10 →
        Nat.digitChar m ∈ ['0', '1', '2', '3', '4', '5', '6', '7', '8', '9'] := by decide
    split_ifs at hc with h0
    · simp only [List.mem_singleton] at hc
      subst hc
      exact hmem _ (Nat.mod_lt _ (by omega))
    · rcases List.mem_append.mp hc with h1 | h1
      · have hn : n ≠ 0 := by
          intro hz
          subst hz
          simp at h0
        exact ih (n / 10) (Nat.div_lt_self (Nat.pos_of_ne_zero hn) (by omega)) c h1
      · simp only [List.mem_singleton] at h1
        subst h1
        exact hmem _ (Nat.mod_lt _ (by omega))

/-- `Nat.digitChar` is injective below 10. -/
theorem digitChar_inj_lt :
    ∀ a < 10, ∀ b < 10, Nat.digitChar a = Nat.digitChar b → a = b := by decide

/-- The decimal digit list determines the number. -/
theorem digitsRepr_injective : ∀ a b : Nat, digitsRepr a = digitsRepr b → a = b := by
  intro a
  induction a using Nat.strong_induction_on with
  | _ a ih =>
    intro b h
    have hlen1 : ∀ n : Nat, (digitsRepr n).length ≠ 0 := by
      intro n hz
      exact digitsRepr_ne_nil n (List.length_eq_zero.mp hz)
    have hA : digitsRepr a = (if _h : a / 10 = 0 then [(a % 10).digitChar]
        else digitsRepr (a / 10) ++ [(a % 10).digitChar]) := by rw [digitsRepr]
    have hB : digitsRepr b = (if _h : b / 10 = 0 then [(b % 10).digitChar]
        else digitsRepr (b / 10) ++ [(b % 10).digitChar]) := by rw [digitsRepr]
    rw [hA, hB] at h
    by_cases ha : a / 10 = 0 <;> by_cases hb : b / 10 = 0
    · rw [dif_pos ha, dif_pos hb] at h
      simp only [List.cons.injEq, and_true] at h
      have := digitChar_inj_lt (a % 10) (Nat.mod_lt _ (by omega)) (b % 10)
        (Nat.mod_lt _ (by omega)) h
      omega
    · rw [dif_pos ha, dif_neg hb] at h
      have := congrArg List.length h
      simp only [List.length_cons, List.length_nil, List.length_append] at this
      have := hlen1 (b / 10)
      omega
    · rw [dif_neg ha, dif_pos hb] at h
      have := congrArg List.length h
      simp only [List.length_cons, List.length_nil, List.length_append] at this
      have := hlen1 (a / 10)
      omega
    · rw [dif_neg ha, dif_neg hb] at h
      have happ := List.append_inj' h (by simp)
      obtain ⟨h1, h2⟩ := happ
      have hdiv : a / 10 = b / 10 := by
        have hna : a ≠ 0 := by
          intro hz
          subst hz
          simp at ha
        exact ih (a / 10) (Nat.div_lt_self (Nat.pos_of_ne_zero hna) (by omega)) _ h1
      simp only [List.cons.injEq, and_true] at h2
      have hmod := digitChar_inj_lt (a % 10) (Nat.mod_lt _ (by omega)) (b % 10)
        (Nat.mod_lt _ (by omega)) h2
      omega

/-- `toString` is injective on the naturals: distinct indices give distinct
`stage_map` keys. -/
theorem toString_nat_injective (a b : Nat) (h : (toString a : String) = toString b) :
    a = b := by
  rw [toString_nat_eq, toString_nat_eq] at h
  exact digitsRepr_injective a b (congrArg String.data h)

/-- A numeral is never the empty string. -/
theorem toString_nat_not_empty (n : Nat) : strEmpty (toString n) = false := by
  rw [toString_nat_eq]
  unfold strEmpty
  cases hd : digitsRepr n with
  | nil => exact absurd hd (digitsRepr_ne_nil n)
  | cons c cs => rfl

/-- A numeral consists of digit characters only. -/
theorem toString_nat_chars (n : Nat) :
    ∀ c ∈ (toString n : String).toList,
      c ∈ ['0', '1', '2', '3', '4', '5', '6', '7', '8', '9'] := by
  rw [toString_nat_eq]
  exact digitsRepr_digits n

/-- A numeral is never the token `a`. -/
theorem toString_nat_ne_a (n : Nat) : (toString n : String) ≠ "a" := by
  intro h
  have := toString_nat_chars n 'a' (by rw [h]; decide)
  simp at this

/-- A numeral is never the token `all`. -/
theorem toString_nat_ne_all (n : Nat) : (toString n : String) ≠ "all" := by
  intro h
  have := toString_nat_chars n 'a' (by rw [h]; decide)
  simp at this

/-- `find?` over an enumeration keyed by decimal numerals finds exactly the
requested index. -/
theorem enumFrom_find?_numeral :
    ∀ (l : List InstallationStage) (k i : Nat), i < l.length →
      (List.enumFrom k l).find? (fun p => toString p.1 = toString (k + i)) =
        some (k + i, l.getD i default) := by
  intro l
  induction l with
  | nil => intro k i h; simp at h
  | cons x xs ih =>
    intro k i h
    rw [List.enumFrom_cons]
    cases i with
    | zero =>
      rw [List.find?_cons_of_pos]
      · simp
      · simp
    | succ j =>
      rw [List.find?_cons_of_neg]
      · have h2 : j < xs.length := by simpa using h
        have h3 := ih (k + 1) j h2
        rw [show k + 1 + j = k + (j + 1) from by omega] at h3
        simpa using h3
      · simp only [decide_eq_true_eq]
        intro hEq
        have := toString_nat_injective _ _ hEq
        omega

/-- Looking up the `stage_map` dictionary at the numeral of an in-range
index yields that stage. -/
theorem stageByIndex_numeral (stages : List InstallationStage) (i : Nat)
    (h : i < stages.length) :
    stageByIndex stages (toString i) = some (stages.getD i default) := by
  unfold stageByIndex
  have h0 := enumFrom_find?_numeral stages 0 i h
  rw [Nat.zero_add] at h0
  rw [show stages.enum = List.enumFrom 0 stages from rfl, h0]
  rfl

/-- `find?` returns the distinguished element when it is the only one
satisfying the predicate. -/
theorem find?_eq_of_unique {α : Type} (p : α → Bool) :
    ∀ (l : List α) (a : α), a ∈ l → p a = true →
      (∀ x ∈ l, p x = true → x = a) → l.find? p = some a := by
  intro l
  induction l with
  | nil => intro a ha; simp at ha
  | cons x xs ih =>
    intro a ha hpa huniq
    by_cases hx : p x = true
    · have hxa : x = a := huniq x (List.mem_cons_self x xs) hx
      subst hxa
      exact List.find?_cons_of_pos _ hx
    · rw [List.find?_cons_of_neg _ (by simpa using hx)]
      refine ih a ?_ hpa ?_
      · rcases List.mem_cons.mp ha with h1 | h1
        · subst h1; exact absurd hpa hx
        · exact h1
      · intro y hy hpy
        exact huniq y (List.mem_cons_of_mem _ hy) hpy

/-- Looking up the `stage_keys` dictionary at the unique stage with a
given lowercased key yields that stage. -/
theorem stageByKey_unique (stages : List InstallationStage)
    (st : InstallationStage) (choice : String) (hmem : st ∈ stages)
    (hkey : pyLower st.key = choice)
    (huniq : ∀ st2 ∈ stages, pyLower st2.key = choice → st2 = st) :
    stageByKey stages choice = some st := by
  unfold stageByKey
  refine find?_eq_of_unique _ _ _ (List.mem_reverse.mpr hmem) (by simp [hkey]) ?_
  intro x hx hpx
  exact huniq x (List.mem_reverse.mp hx) (by simpa using hpx)

/-- C9: in the choosing state, a numeral of an in-range index selects that
stage, the unique case-insensitive stage key selects that stage, the
tokens `a` and `all` select every stage in plan order, an input that is
empty after stripping closes the session, and any unrecognized input
leaves the loop where it was, selecting nothing. -/
theorem c9_choice_dispatch :
    (∀ (stages : List InstallationStage) (i : Nat) (raw : String),
        i < stages.length → pyLower (pyStrip raw) = toString i →
        interpretChoice stages (pyLower (pyStrip raw)) =
          ChoiceOutcome.run [stages.getD i default]) ∧
    (∀ (stages : List InstallationStage) (st : InstallationStage) (raw : String),
        st ∈ stages → pyLower (pyStrip raw) = pyLower st.key →
        (∀ st2 ∈ stages, pyLower st2.key = pyLower (pyStrip raw) → st2 = st) →
        strEmpty (pyLower (pyStrip raw)) = false →
        pyLower (pyStrip raw) ≠ "a" → pyLower (pyStrip raw) ≠ "all" →
        stageByIndex stages (pyLower (pyStrip raw)) = none →
        interpretChoice stages (pyLower (pyStrip raw)) = ChoiceOutcome.run [st]) ∧
    (∀ (stages : List InstallationStage) (raw : String),
        pyLower (pyStrip raw) = "a" ∨ pyLower (pyStrip raw) = "all" →
        interpretChoice stages (pyLower (pyStrip raw)) = ChoiceOutcome.run stages) ∧
    (∀ (stages : List InstallationStage) (notes copies : List String)
        (raw : String) (rest : List String), pyLower (pyStrip raw) = "" →
        wizardLoop stages notes copies (raw :: rest) =
          some (WizardResult.closed notes copies)) ∧
    (∀ (stages : List InstallationStage) (notes copies : List String)
        (raw : String) (rest : List String),
        interpretChoice stages (pyLower (pyStrip raw)) = ChoiceOutcome.unknown →
        wizardLoop stages notes copies (raw :: rest) =
          wizardLoop stages notes copies rest) := by
  refine ⟨?_, ?_, ?_, ?_, ?_⟩
  · intro stages i raw hi hnorm
    rw [hnorm]
    unfold interpretChoice
    rw [toString_nat_not_empty i]
    have ha : (((toString i : String) = "a") ∨ ((toString i : String) = "all")) = False := by
      simp [toString_nat_ne_a i, toString_nat_ne_all i]
    simp only [toString_nat_ne_a i, toString_nat_ne_all i, stageByIndex_numeral stages i hi]
    simp
  · intro stages st raw hmem hkey huniq hempty hna hnall hidx
    unfold interpretChoice
    rw [hempty]
    simp only [hna, hnall, hidx]
    rw [stageByKey_unique stages st _ hmem hkey.symm
      (fun st2 h2 hk2 => huniq st2 h2 hk2)]
    simp
  · intro stages raw h
    rcases h with h | h <;> rw [h] <;> rfl
  · intro stages notes copies raw rest h
    rw [wizardLoop_cons, h]
    rfl
  · intro stages notes copies raw rest h
    rw [wizardLoop_cons, h]

/-- C9 witness: on a two-stage plan, the inputs `1`, `TWO`, ` All `, a
blank line, and `bogus` behave as claimed. -/
theorem c9_choice_dispatch_witness :
    interpretChoice [demoStage, demoStage2] (pyLower (pyStrip "1")) =
      ChoiceOutcome.run [demoStage2] ∧
    interpretChoice [demoStage, demoStage2] (pyLower (pyStrip "TWO")) =
      ChoiceOutcome.run [demoStage2] ∧
    interpretChoice [demoStage, demoStage2] (pyLower (pyStrip " All ")) =
      ChoiceOutcome.run [demoStage, demoStage2] ∧
    wizardLoop [demoStage, demoStage2] [] [] [" ", "x"] =
      some (WizardResult.closed [] []) ∧
    wizardLoop [demoStage, demoStage2] [] [] ["bogus", "", "y"] =
      wizardLoop [demoStage, demoStage2] [] [] ["", "y"] := by
  refine ⟨?_, ?_, ?_, ?_, ?_⟩
  · exact c9_choice_dispatch.1 [demoStage, demoStage2] 1 "1" (by decide) (by decide)
  · exact c9_choice_dispatch.2.1 [demoStage, demoStage2] demoStage2 "TWO"
      (by decide) (by decide) (by decide) (by decide) (by decide) (by decide) (by decide)
  · exact c9_choice_dispatch.2.2.1 [demoStage, demoStage2] " All " (Or.inr (by decide))
  · exact c9_choice_dispatch.2.2.2.1 [demoStage, demoStage2] [] [] " " ["x"] (by decide)
  · exact c9_choice_dispatch.2.2.2.2 [demoStage, demoStage2] [] [] "bogus" ["", "y"]
      (by decide)

end ApexInstaller
